import Mathlib

/-!
# Verification of the UniFi IPAM provider's allocation and status engines

This file is a shallow embedding, in Lean 4, of the core address arithmetic,
allocation, pool-status and admission-validation logic of the
`cluster-api-ipam-provider-unifi` repository, together with theorems settling
the specification claims about that logic.

Modelling conventions:
* Go `netip.Addr` values are modelled as `Option Nat`: `none` is the zero
  (invalid) `netip.Addr`, `some v` (with `v < 2^32`) is the IPv4 address whose
  big-endian 32-bit value is `v`.  The specification restricts itself to IPv4,
  and every code path exercised by the claims is IPv4-only, so the IPv6
  branches of the source are not modelled.
* Address and CIDR *strings* are kept as strings, exactly as the source passes
  them around; parsing (`netip.ParseAddr` / `netip.ParsePrefix`, restricted to
  their IPv4 grammar: dotted quad, fields 0–255, no leading zeros) and
  rendering (`netip.Addr.String`) are implemented over `String.data`.
* Fallible Go functions returning `(T, error)` become `Except E T`, with one
  error constructor per distinct `fmt.Errorf` site.
* `netipx.IPSet` values are modelled as lists of inclusive ranges
  `lo ≤ hi`, the normal form netipx maintains; the builder operations used by
  the source (add a prefix, remove an address / prefix) are implemented as
  interval operations on that list.
-/

set_option maxRecDepth 40000

/-- Decidable equality of `Except` results, needed to `decide` concrete runs. -/
instance {ε α : Type} [DecidableEq ε] [DecidableEq α] : DecidableEq (Except ε α) := fun x y =>
  match x, y with
  | .ok a, .ok b => if h : a = b then isTrue (by rw [h]) else isFalse (by simp [h])
  | .error a, .error b => if h : a = b then isTrue (by rw [h]) else isFalse (by simp [h])
  | .ok _, .error _ => isFalse (by simp)
  | .error _, .ok _ => isFalse (by simp)

/-! ## Characters, digits, decimal rendering -/

/-- Decimal digit character for `d < 10`. -/
def digitChar (d : Nat) : Char := Char.ofNat (48 + d)

/-- Decimal digits of `n` (most significant first); `fuel` bounds recursion and
any `fuel > n` is enough. -/
def natDigits : Nat → Nat → List Char
  | 0, _ => []
  | f + 1, n => if n < 10 then [digitChar n] else natDigits f (n / 10) ++ [digitChar (n % 10)]

/-- Decimal rendering of a natural number (same output as Go's `%d`). -/
def natToStr (n : Nat) : String := String.mk (natDigits (n + 1) n)

/-- Split a character list on a separator character (like `strings.Split`). -/
def splitOnChar (sep : Char) : List Char → List (List Char)
  | [] => [[]]
  | c :: rest =>
    let r := splitOnChar sep rest
    if c = sep then [] :: r
    else
      match r with
      | h :: t => (c :: h) :: t
      | [] => [[c]]

/-- Value of a list of decimal digit characters, most significant first. -/
def digitsToNat (cs : List Char) : Nat := cs.foldl (fun acc c => acc * 10 + (c.toNat - 48)) 0

/-! ## IPv4 parsing and rendering (the IPv4 grammar of `netip.ParseAddr` /
`netip.ParsePrefix`: dotted quad, each field 0–255 in decimal with no leading
zeros; prefix length 0–32) -/

/-- Parse one dotted-quad field: 1–3 decimal digits, no leading zero, ≤ 255. -/
def parseOctet (cs : List Char) : Option Nat :=
  if cs.length = 0 then none
  else if 3 < cs.length then none
  else if ¬ cs.all Char.isDigit then none
  else if 1 < cs.length ∧ cs.head? = some '0' then none
  else
    let n := digitsToNat cs
    if n ≤ 255 then some n else none

/-- Parse an IPv4 address string to its 32-bit value (`netip.ParseAddr`,
IPv4 grammar). -/
def parseAddrChars (cs : List Char) : Option Nat :=
  match splitOnChar '.' cs with
  | [p1, p2, p3, p4] =>
    match parseOctet p1, parseOctet p2, parseOctet p3, parseOctet p4 with
    | some a, some b, some c, some d => some (((a * 256 + b) * 256 + c) * 256 + d)
    | _, _, _, _ => none
  | _ => none

/-- Parse an IPv4 address string (`netip.ParseAddr`). -/
def parseAddr (s : String) : Option Nat := parseAddrChars s.data

/-- A parsed `netip.Prefix`: the (possibly unmasked) base address value and the
prefix length in bits.  `netip.ParsePrefix` does *not* mask the address. -/
structure IPPrefix where
  base : Nat
  bits : Nat
deriving DecidableEq, Repr

/-- Parse the decimal prefix length after the slash: digits, no leading zero. -/
def parseBitsChars (cs : List Char) : Option Nat :=
  if cs.length = 0 then none
  else if ¬ cs.all Char.isDigit then none
  else if 1 < cs.length ∧ cs.head? = some '0' then none
  else some (digitsToNat cs)

/-- Parse an IPv4 CIDR string (`netip.ParsePrefix`): address, slash, bits ≤ 32. -/
def parsePrefix (s : String) : Option IPPrefix :=
  match splitOnChar '/' s.data with
  | [ipPart, bitsPart] =>
    match parseAddrChars ipPart, parseBitsChars bitsPart with
    | some b, some n => if n ≤ 32 then some ⟨b, n⟩ else none
    | _, _ => none
  | _ => none

/-- Render an IPv4 `netip.Addr` (`Addr.String`); the zero `Addr` renders as
`"invalid IP"` exactly as in Go. -/
def addrString : Option Nat → String
  | none => "invalid IP"
  | some v =>
    natToStr (v / 16777216 % 256) ++ "." ++ natToStr (v / 65536 % 256) ++ "." ++
      natToStr (v / 256 % 256) ++ "." ++ natToStr (v % 256)

/-! ## `netip.Addr` arithmetic -/

/-- `netip.Addr.Next`: successor, or the invalid address on overflow. -/
def addrNext : Option Nat → Option Nat
  | none => none
  | some v => if v + 1 < 4294967296 then some (v + 1) else none

/-- `netip.Addr.Prev`: predecessor, or the invalid address on underflow. -/
def addrPrev : Option Nat → Option Nat
  | none => none
  | some v => if v = 0 then none else some (v - 1)

/-- `netip.Addr.Compare`: the invalid (zero) address sorts before every valid
address. -/
def addrCompare : Option Nat → Option Nat → Ordering
  | none, none => .eq
  | none, some _ => .lt
  | some _, none => .gt
  | some a, some b => compare a b

/-- `netip.Prefix.Contains` for IPv4: equality of the two addresses' upper
`bits` bits.  -/
def prefixContains (p : IPPrefix) (v : Nat) : Bool :=
  v / 2 ^ (32 - p.bits) == p.base / 2 ^ (32 - p.bits)

/-- The masked (network) address of a prefix, `prefix.Masked().Addr()`. -/
def maskedBase (p : IPPrefix) : Nat := p.base - p.base % 2 ^ (32 - p.bits)

/-! ## `internal/poolutil/address.go` -/

/-- Errors of `GetIPAddress` and its helpers, one constructor per
`fmt.Errorf` site in `address.go`. -/
inductive AddrErr where
  | invalidCIDR (cidr : String)
  | cidrOutOfRange (index : Nat) (cidr : String)
  | invalidStartIP (s : String)
  | invalidEndIP (s : String)
  | startAfterEnd (s e : String)
  | rangeOutOfRange (index : Nat) (startS endS : String)
  | missingSubnetForm
deriving DecidableEq, Repr

/-- The advance loop shared by `getIPFromCIDR` and `getIPFromRange`:
`index` times, step `current = current.Next()` and fail with `err` when the
result is invalid or past `last`. -/
def advanceAddr (last : Option Nat) (err : AddrErr) : Option Nat → Nat → Except AddrErr (Option Nat)
  | cur, 0 => .ok cur
  | cur, i + 1 =>
    let nxt := addrNext cur
    if nxt.isNone ∨ addrCompare nxt last = .gt then .error err
    else advanceAddr last err nxt i

/-- `firstUsableIP`: for IPv4, the successor of the (unmasked!) prefix base
address — the source uses `prefix.Addr()`, not `prefix.Masked().Addr()`. -/
def firstUsableIP (p : IPPrefix) : Option Nat := addrNext (some p.base)

/-- The saturating advance loop inside `lastUsableIP`: step `k` times from
`c`, stopping early (Go `break`) once `Next` would overflow. -/
def advanceSat : Nat → Nat → Nat
  | c, 0 => c
  | c, k + 1 =>
    match addrNext (some c) with
    | none => c
    | some c2 => advanceSat c2 k

/-- `lastUsableIP`: walk `2^(32-bits) - 1` steps up from the masked network
address (saturating at `255.255.255.255`), then step back once (skipping the
IPv4 broadcast address). -/
def lastUsableIP (p : IPPrefix) : Option Nat :=
  let broadcast := advanceSat (maskedBase p) (2 ^ (32 - p.bits) - 1)
  addrPrev (some broadcast)

/-- `getIPFromCIDR`: the IP at `index` within a CIDR block, starting from the
first usable address. -/
def getIPFromCIDR (cidr : String) (index : Nat) : Except AddrErr (Option Nat) :=
  match parsePrefix cidr with
  | none => .error (.invalidCIDR cidr)
  | some p => advanceAddr (lastUsableIP p) (.cidrOutOfRange index cidr) (firstUsableIP p) index

/-- `getIPFromRange`: the IP at `index` between inclusive start and end. -/
def getIPFromRange (startS endS : String) (index : Nat) : Except AddrErr (Option Nat) :=
  match parseAddr startS with
  | none => .error (.invalidStartIP startS)
  | some s =>
    match parseAddr endS with
    | none => .error (.invalidEndIP endS)
    | some e =>
      if compare s e = .gt then .error (.startAfterEnd startS endS)
      else advanceAddr (some e) (.rangeOutOfRange index startS endS) (some s) index

/-- `api/v1beta2.SubnetSpec`.  The Go field `End` is called `endAddr` because
`end` is a Lean keyword, and `Prefix` is called `prefixLen` for the same kind
of lexical reason; all other field names match the source. -/
structure SubnetSpec where
  cidr : String := ""
  start : String := ""
  endAddr : String := ""
  gateway : String := ""
  prefixLen : Option Int := none
  excludeRanges : List String := []
  dnsServers : List String := []
deriving DecidableEq, Repr

/-- `GetIPAddress`: index-based enumeration over a subnet, CIDR form first,
then start/end range form.  (The `defaultPrefix` parameter is unused in the
source as well.) -/
def GetIPAddress (subnet : SubnetSpec) (_defaultPrefix : Int) (index : Nat) : Except AddrErr (Option Nat) :=
  if subnet.cidr ≠ "" then getIPFromCIDR subnet.cidr index
  else if subnet.start ≠ "" ∧ subnet.endAddr ≠ "" then getIPFromRange subnet.start subnet.endAddr index
  else .error .missingSubnetForm

/-- `inSubnet`: containment of a parsed address in one subnet (CIDR
containment, else inclusive start/end comparison). -/
def inSubnet (addr : Nat) (subnet : SubnetSpec) : Bool :=
  if subnet.cidr ≠ "" then
    match parsePrefix subnet.cidr with
    | some p => prefixContains p addr
    | none => false
  else if subnet.start ≠ "" ∧ subnet.endAddr ≠ "" then
    match parseAddr subnet.start, parseAddr subnet.endAddr with
    | some s, some e => decide (s ≤ addr) && decide (addr ≤ e)
    | _, _ => false
  else false

/-- `IPInSubnets`: the address string parses and lies in some subnet of the
list.  (The `defaultPrefix` parameter is unused in the source as well.) -/
def IPInSubnets (ip : String) (subnets : List SubnetSpec) (_defaultPrefix : Int) : Bool :=
  match parseAddr ip with
  | none => false
  | some addr => subnets.any (inSubnet addr)

/-- `GetPrefix`: per-subnet override first, else the bits implied by the CIDR
(when the subnet has a parseable CIDR), else the default. -/
def GetPrefix (subnet : SubnetSpec) (defaultPrefix : Int) : Int :=
  match subnet.prefixLen with
  | some p => p
  | none =>
    if subnet.cidr ≠ "" then
      match parsePrefix subnet.cidr with
      | some p => (p.bits : Int)
      | none => defaultPrefix
    else defaultPrefix

/-- `GetGateway`: per-subnet override first, else the default. -/
def GetGateway (subnet : SubnetSpec) (defaultGateway : String) : String :=
  if subnet.gateway ≠ "" then subnet.gateway else defaultGateway

-- sanity examples exercised while developing (kept as anonymous examples):
example : parseAddr "10.1.40.2" = some 167847938 := by decide
example : parseAddr "10.1.40.02" = none := by decide
example : parsePrefix "10.1.40.0/24" = some ⟨167847936, 24⟩ := by decide
example : addrString (some 167847938) = "10.1.40.2" := by decide
example : getIPFromCIDR "10.1.40.0/24" 0 = .ok (some 167847937) := by decide
example : getIPFromCIDR "10.1.40.0/24" 253 = .ok (some 167848190) := by decide
example : (getIPFromCIDR "10.1.40.0/24" 254).isOk = false := by decide

/-! ## SHA-256 (crypto/sha256), over byte lists, words as `Nat` mod `2^32` -/

/-- Truncate to a 32-bit word. -/
def u32 (n : Nat) : Nat := n % 4294967296

/-- 32-bit rotate right. -/
def rotr (x n : Nat) : Nat := u32 ((x >>> n) ||| (x <<< (32 - n)))

/-- SHA-256 round constants. -/
def sha256K : List Nat :=
  [1116352408, 1899447441, 3049323471, 3921009573, 961987163, 1508970993, 2453635748, 2870763221,
  3624381080, 310598401, 607225278, 1426881987, 1925078388, 2162078206, 2614888103, 3248222580,
  3835390401, 4022224774, 264347078, 604807628, 770255983, 1249150122, 1555081692, 1996064986,
  2554220882, 2821834349, 2952996808, 3210313671, 3336571891, 3584528711, 113926993, 338241895,
  666307205, 773529912, 1294757372, 1396182291, 1695183700, 1986661051, 2177026350, 2456956037,
  2730485921, 2820302411, 3259730800, 3345764771, 3516065817, 3600352804, 4094571909, 275423344,
  430227734, 506948616, 659060556, 883997877, 958139571, 1322822218, 1537002063, 1747873779,
  1955562222, 2024104815, 2227730452, 2361852424, 2428436474, 2756734187, 3204031479, 3329325298]

/-- SHA-256 initial hash state. -/
def sha256H0 : List Nat :=
  [1779033703, 3144134277, 1013904242, 2773480762, 1359893119, 2600822924, 528734635, 1541459225]

/-- Big-endian 32-bit words from a byte list. -/
def toWordsBE : List Nat → List Nat
  | b0 :: b1 :: b2 :: b3 :: rest => (((b0 * 256 + b1) * 256 + b2) * 256 + b3) :: toWordsBE rest
  | _ => []

/-- Message-schedule extension from 16 to 64 words. -/
def sha256Schedule (w16 : List Nat) : List Nat :=
  (List.range 48).foldl
    (fun w _ =>
      let n := w.length
      let s0 := rotr (w.getD (n - 15) 0) 7 ^^^ rotr (w.getD (n - 15) 0) 18 ^^^ (w.getD (n - 15) 0 >>> 3)
      let s1 := rotr (w.getD (n - 2) 0) 17 ^^^ rotr (w.getD (n - 2) 0) 19 ^^^ (w.getD (n - 2) 0 >>> 10)
      w ++ [u32 (s1 + w.getD (n - 7) 0 + s0 + w.getD (n - 16) 0)])
    w16

/-- One SHA-256 compression round on the 8-word working state; `kw` is
`K[t] + W[t]` mod `2^32`. -/
def sha256Round (st : List Nat) (kw : Nat) : List Nat :=
  match st with
  | [a, b, c, d, e, f, g, h] =>
    let s1 := rotr e 6 ^^^ rotr e 11 ^^^ rotr e 25
    let ch := (e &&& f) ^^^ ((e ^^^ 4294967295) &&& g)
    let t1 := u32 (h + s1 + ch + kw)
    let s0 := rotr a 2 ^^^ rotr a 13 ^^^ rotr a 22
    let mj := (a &&& b) ^^^ (a &&& c) ^^^ (b &&& c)
    let t2 := u32 (s0 + mj)
    [u32 (t1 + t2), a, b, c, u32 (d + t1), e, f, g]
  | _ => st

/-- Compress one 64-byte block into the hash state. -/
def sha256Compress (hs : List Nat) (block : List Nat) : List Nat :=
  let w := sha256Schedule (toWordsBE block)
  let kws := (sha256K.zip w).map (fun p => u32 (p.1 + p.2))
  let st := kws.foldl sha256Round hs
  (hs.zip st).map (fun p => u32 (p.1 + p.2))

/-- Big-endian 8-byte encoding of a (bit-)length. -/
def beBytes8 (n : Nat) : List Nat :=
  [n / 72057594037927936 % 256, n / 281474976710656 % 256, n / 1099511627776 % 256,
   n / 4294967296 % 256, n / 16777216 % 256, n / 65536 % 256, n / 256 % 256, n % 256]

/-- SHA-256 padding: `0x80`, zeros to 56 mod 64, then the 64-bit bit length. -/
def sha256Pad (msg : List Nat) : List Nat :=
  msg ++ 128 :: List.replicate ((64 + 55 - msg.length % 64) % 64) 0 ++ beBytes8 (msg.length * 8)

/-- The SHA-256 digest (32 bytes) of a byte list. -/
def sha256 (msg : List Nat) : List Nat :=
  let padded := sha256Pad msg
  let hs := (List.range (padded.length / 64)).foldl
    (fun hs i => sha256Compress hs ((padded.drop (64 * i)).take 64)) sha256H0
  (hs.map fun h => [h / 16777216 % 256, h / 65536 % 256, h / 256 % 256, h % 256]).flatten

/-- UTF-8 encoding of one character (Go's `[]byte(string)` byte view). -/
def charUtf8 (c : Char) : List Nat :=
  let n := c.toNat
  if n < 128 then [n]
  else if n < 2048 then [192 + n / 64, 128 + n % 64]
  else if n < 65536 then [224 + n / 4096, 128 + n / 64 % 64, 128 + n % 64]
  else [240 + n / 262144, 128 + n / 4096 % 64, 128 + n / 64 % 64, 128 + n % 64]

/-- The UTF-8 bytes of a string (Go `[]byte(name)`). -/
def strBytes (s : String) : List Nat := s.data.foldr (fun c acc => charUtf8 c ++ acc) []

/-- Lowercase hex digit. -/
def hexChar (d : Nat) : Char := if d < 10 then Char.ofNat (48 + d) else Char.ofNat (87 + d)

/-- Two-digit lowercase hex of a byte (Go `%02x`). -/
def hex2 (n : Nat) : String := String.mk [hexChar (n / 16 % 16), hexChar (n % 16)]

/-- `generateMACForClaim` (pkg/unifi client): `02:` followed by the first five
SHA-256 bytes of the claim name — a locally-administered unicast MAC. -/
def generateMACForClaim (claimName : String) : String :=
  let h := sha256 (strBytes claimName)
  "02:" ++ hex2 (h.getD 0 0) ++ ":" ++ hex2 (h.getD 1 0) ++ ":" ++ hex2 (h.getD 2 0) ++
    ":" ++ hex2 (h.getD 3 0) ++ ":" ++ hex2 (h.getD 4 0)

/-- `generateMACAddress` (ipaddressclaim controller): `00:00:00:00:00:` plus
the hex of `len(name) % 256` — the naive length-based derivation. -/
def generateMACAddress (name : String) : String :=
  "00:00:00:00:00:" ++ hex2 ((strBytes name).length % 256)

example : sha256 (strBytes "abc") = [186, 120, 22, 191, 143, 1, 207, 234, 65, 65, 64, 222, 93,
  174, 34, 35, 176, 3, 97, 163, 150, 23, 122, 156, 180, 16, 255, 97, 242, 0, 21, 173] := by decide

/-! ## Data model for the allocation engine (`pkg/unifi`, `api/v1beta2`) -/

/-- `v1beta2.UnifiIPPoolSpec` — the fields read by the allocation engine.
`Prefix` is called `prefixLen` (Lean lexical restriction); `PreAllocations`
(a Go `map[string]string`) is modelled as an association list with unique
keys, looked up by claim name. -/
structure PoolSpec where
  subnets : List SubnetSpec := []
  prefixLen : Option Int := none
  gateway : String := ""
  preAllocations : List (String × String) := []
deriving DecidableEq, Repr

/-- `ipamv1beta2.IPAddressClaim` — name plus annotations (the engine reads
only the `"ipAddress"` key; a Go nil map behaves as the empty list). -/
structure ClaimSpec where
  name : String
  annotations : List (String × String) := []
deriving DecidableEq, Repr

/-- `ipamv1beta2.IPAddress` / `ipamv1.IPAddress` — the fields read by the
engine and the status computation: the namespace (field `nsName`, since
`namespace` is a Lean keyword), `Spec.Address`, and `Spec.ClaimRef.Name`. -/
structure IPAddress where
  nsName : String := ""
  address : String := ""
  claimRefName : String := ""
deriving DecidableEq, Repr

/-- A UniFi `StaticAssignment` (fixed-IP `User` record): IP, MAC, hostname. -/
structure StaticAssignment where
  ip : String := ""
  mac : String := ""
  hostname : String := ""
deriving DecidableEq, Repr

/-- Allocation errors, one constructor per `fmt.Errorf` site of
`allocateNextIP`. -/
inductive AllocError where
  | nilPool
  | noSubnets
  | preallocOutOfSubnets (ip claimName : String)
  | preallocConflict (ip otherClaim : String)
  | preallocUnifiConflict (ip mac : String)
  | requestedOutOfSubnets (ip : String)
  | requestedConflict (ip : String)
  | requestedUnifiConflict (ip : String)
  | poolExhausted
deriving DecidableEq, Repr

/-- The default prefix used for validation: `pool.Spec.Prefix` when set and
positive, else 24. -/
def defaultPrefixOf (pool : PoolSpec) : Int :=
  match pool.prefixLen with
  | some p => if p > 0 then p else 24
  | none => 24

/-- The metadata loop shared by the pinned and requested tiers: find the
first subnet containing the IP (parsing the IP fresh each iteration, skipping
the subnet when the parse fails) and return its effective prefix/gateway.
The loop's inline containment check is the same test as `inSubnet`. -/
def findSubnetMeta (ip : String) (subnets : List SubnetSpec) (defaultPrefix : Int)
    (poolGateway : String) : Option (Int × String) :=
  match subnets with
  | [] => none
  | s :: rest =>
    match parseAddr ip with
    | none => findSubnetMeta ip rest defaultPrefix poolGateway
    | some v =>
      if inSubnet v s then some (GetPrefix s defaultPrefix, GetGateway s poolGateway)
      else findSubnetMeta ip rest defaultPrefix poolGateway

/-- The dynamic tier's inner loop over one subnet: enumerate candidates by
index from `index`, skip the subnet's effective gateway and any already
allocated address, stop (`none`) at the first enumeration error.  `fuel`
bounds the recursion; `GetIPAddress` fails for every index beyond the subnet
size, which is at most `2^32`, so `scanFuel` below makes the bound
unreachable and the function agrees with the source's unbounded loop. -/
def scanSubnet (subnet : SubnetSpec) (defaultPrefix : Int) (gateway : String)
    (allocated : String → Bool) : Nat → Nat → Option String
  | 0, _ => none
  | fuel + 1, index =>
    match GetIPAddress subnet defaultPrefix index with
    | .error _ => none
    | .ok a =>
      if addrString a == gateway then
        scanSubnet subnet defaultPrefix gateway allocated fuel (index + 1)
      else if allocated (addrString a) then
        scanSubnet subnet defaultPrefix gateway allocated fuel (index + 1)
      else some (addrString a)

/-- Fuel for `scanSubnet`: one more than the largest possible subnet. -/
def scanFuel : Nat := 4294967297

/-- The dynamic tier's outer loop: subnets in declared order, each scanned
from index 0 with its effective prefix/gateway. -/
def dynamicLoop (subnets : List SubnetSpec) (defaultPrefix : Int) (poolGateway : String)
    (allocated : String → Bool) : Option (String × Int × String) :=
  match subnets with
  | [] => none
  | s :: rest =>
    match scanSubnet s defaultPrefix (GetGateway s poolGateway) allocated scanFuel 0 with
    | some ip => some (ip, GetPrefix s defaultPrefix, GetGateway s poolGateway)
    | none => dynamicLoop rest defaultPrefix poolGateway allocated

/-- Dynamic allocation (priority 3): exclusion set = in-store bound addresses
plus UniFi static assignments; first non-excluded candidate wins. -/
def tier3Dynamic (pool : PoolSpec) (defaultPrefix : Int)
    (staticAssignments : List StaticAssignment) (addressesInUse : List IPAddress) :
    Except AllocError (String × Int × String) :=
  match dynamicLoop pool.subnets defaultPrefix pool.gateway
      (fun s => addressesInUse.any (fun a => a.address == s)
        || staticAssignments.any (fun sa => sa.ip == s)) with
  | some t => .ok t
  | none => .error .poolExhausted

/-- Requested tier (priority 2): a non-empty `"ipAddress"` annotation must be
in the configured subnets, not bound to *any* claim, and not statically
assigned in UniFi (no MAC comparison in this tier). -/
def tier2Requested (pool : PoolSpec) (claim? : Option ClaimSpec) (defaultPrefix : Int)
    (staticAssignments : List StaticAssignment) (addressesInUse : List IPAddress) :
    Except AllocError (String × Int × String) :=
  match claim? with
  | none => tier3Dynamic pool defaultPrefix staticAssignments addressesInUse
  | some claim =>
    match claim.annotations.lookup "ipAddress" with
    | none => tier3Dynamic pool defaultPrefix staticAssignments addressesInUse
    | some requestedIP =>
      if requestedIP = "" then tier3Dynamic pool defaultPrefix staticAssignments addressesInUse
      else if ¬ IPInSubnets requestedIP pool.subnets defaultPrefix then
        .error (.requestedOutOfSubnets requestedIP)
      else
        match addressesInUse.find? (fun a => a.address == requestedIP) with
        | some _ => .error (.requestedConflict requestedIP)
        | none =>
          match staticAssignments.find? (fun sa => sa.ip == requestedIP) with
          | some _ => .error (.requestedUnifiConflict requestedIP)
          | none =>
            match findSubnetMeta requestedIP pool.subnets defaultPrefix pool.gateway with
            | some (p, g) => .ok (requestedIP, p, g)
            | none => .ok (requestedIP, defaultPrefix, pool.gateway)

/-- Pinned tier (priority 1): the preallocated IP must be in the configured
subnets; a binding to a *different* claim is a conflict (same claim = reuse);
a UniFi static assignment under a *different* MAC than the claim's derived
MAC is a conflict (same MAC = reuse). -/
def tier1Pinned (pool : PoolSpec) (claim : ClaimSpec) (prealloc : String) (defaultPrefix : Int)
    (staticAssignments : List StaticAssignment) (addressesInUse : List IPAddress) :
    Except AllocError (String × Int × String) :=
  if ¬ IPInSubnets prealloc pool.subnets defaultPrefix then
    .error (.preallocOutOfSubnets prealloc claim.name)
  else
    match addressesInUse.find? (fun a => a.address == prealloc && a.claimRefName != claim.name) with
    | some other => .error (.preallocConflict prealloc other.claimRefName)
    | none =>
      match staticAssignments.find?
          (fun sa => sa.ip == prealloc && sa.mac != generateMACForClaim claim.name) with
      | some sa => .error (.preallocUnifiConflict prealloc sa.mac)
      | none =>
        match findSubnetMeta prealloc pool.subnets defaultPrefix pool.gateway with
        | some (p, g) => .ok (prealloc, p, g)
        | none => .ok (prealloc, defaultPrefix, pool.gateway)

/-- `allocateNextIP` (pkg/unifi client): the 3-tier priority algorithm.
The UniFi static assignments (`GetStaticAssignments`, the same list in every
tier) are passed in as a value; the transport-failure paths of the source
(which only propagate the client error) are not modelled. -/
def allocateNextIP (pool? : Option PoolSpec) (claim? : Option ClaimSpec)
    (staticAssignments : List StaticAssignment) (addressesInUse : List IPAddress) :
    Except AllocError (String × Int × String) :=
  match pool? with
  | none => .error .nilPool
  | some pool =>
    if pool.subnets.length = 0 then .error .noSubnets
    else
      let defaultPrefix := defaultPrefixOf pool
      match claim? with
      | some claim =>
        match pool.preAllocations.lookup claim.name with
        | some prealloc =>
          tier1Pinned pool claim prealloc defaultPrefix staticAssignments addressesInUse
        | none => tier2Requested pool claim? defaultPrefix staticAssignments addressesInUse
      | none => tier2Requested pool claim? defaultPrefix staticAssignments addressesInUse

/-! ## `netipx.IPSet` as normalized inclusive ranges, and
`internal/poolutil/poolutil.go` -/

/-- One inclusive address range of an IP set (`netipx.IPRange`). -/
structure IPRange where
  lo : Nat
  hi : Nat
deriving DecidableEq, Repr

/-- `IPSet.Contains`. -/
def rangesContains (rs : List IPRange) (v : Nat) : Bool :=
  rs.any (fun r => decide (r.lo ≤ v) && decide (v ≤ r.hi))

/-- Remove the inclusive range `[a, b]` from one range, splitting as needed. -/
def cutRange (r : IPRange) (a b : Nat) : List IPRange :=
  if r.hi < a ∨ b < r.lo then [r]
  else
    (if r.lo < a then [⟨r.lo, a - 1⟩] else []) ++ (if b < r.hi then [⟨b + 1, r.hi⟩] else [])

/-- `IPSetBuilder.RemoveRange`. -/
def removeRange (rs : List IPRange) (a b : Nat) : List IPRange :=
  (rs.map (fun r => cutRange r a b)).flatten

/-- `IPSetBuilder.Remove` (a single address). -/
def removeAddr (rs : List IPRange) (a : Nat) : List IPRange := removeRange rs a a

/-- `ipamv1alpha1.IPAddressStatusSummary` (plain integer fields). -/
structure StatusSummary where
  total : Int
  used : Int
  free : Int
  outOfRange : Int
deriving DecidableEq, Repr

/-- `ComputePoolStatus`: total from the set's ranges — note the source counts
`int(to.As4()[3] - from.As4()[3] + 1)` per range, i.e. *byte* arithmetic on
the last octet only; used/out-of-range by namespace-filtered containment of
each bound address; free = total − used floored at 0. -/
def ComputePoolStatus (poolIPSet : Option (List IPRange)) (addressesInUse : List IPAddress)
    (poolNamespace : String) : StatusSummary :=
  match poolIPSet with
  | none => ⟨0, 0, 0, 0⟩
  | some rs =>
    let totalCount : Int := rs.foldl
      (fun acc r => acc + (((r.hi % 256 + 257 - r.lo % 256) % 256 : Nat) : Int)) 0
    let counts : Int × Int := addressesInUse.foldl
      (fun (uc : Int × Int) addr =>
        if poolNamespace ≠ "" ∧ addr.nsName ≠ poolNamespace then uc
        else if addr.address = "" then uc
        else
          match parseAddr addr.address with
          | none => uc
          | some ip => if rangesContains rs ip then (uc.1 + 1, uc.2) else (uc.1, uc.2 + 1))
      (0, 0)
    let freeCount := totalCount - counts.1
    ⟨totalCount, counts.1, if freeCount < 0 then 0 else freeCount, counts.2⟩

/-- The actual number of addresses in a range list (the claim-side notion of
the size of a pool's address set). -/
def rangesSize (rs : List IPRange) : Int :=
  rs.foldl (fun acc r => acc + ((r.hi : Int) - (r.lo : Int) + 1)) 0

/-! ## `unifiinstance_controller.go`: capacity metrics and the Exhausted
condition -/

/-- `v1beta2.IPAddressStatusSummary` (pointer fields → `Option`). -/
structure SummaryV2 where
  total? : Option Int := none
  used? : Option Int := none
  free? : Option Int := none
  outOfRange? : Option Int := none
deriving DecidableEq, Repr

/-- `v1beta2.PoolCapacity` (pointer fields → `Option`). -/
structure PoolCapacity where
  utilizationPercent : Option Int := none
  highUtilization : Option Bool := none
deriving DecidableEq, Repr

/-- A `metav1.Condition` as written by the instance controller: type, status
(`true` = `ConditionTrue`), reason, message. -/
structure PoolCondition where
  condType : String
  status : Bool
  reason : String
  message : String
deriving DecidableEq, Repr

/-- Decimal rendering of an `Int` (Go `%d`). -/
def intToStr (v : Int) : String :=
  if v < 0 then "-" ++ natToStr v.natAbs else natToStr v.natAbs

/-- Two's-complement wrap of an unbounded integer into the `int32` range,
`[-2^31, 2^31)`. -/
def wrap32 (v : Int) : Int := (v + 2147483648) % 4294967296 - 2147483648

/-- Go `int32` multiplication: the product wraps modulo `2^32`. -/
def int32Mul (a b : Int) : Int := wrap32 (a * b)

/-- Go `int32` division: truncation toward zero; the one overflowing case,
`MinInt32 / -1`, wraps back to `MinInt32` exactly as in Go. -/
def int32Div (a b : Int) : Int := wrap32 (Int.tdiv a b)

/-- `calculateCapacityMetrics`: empty capacity when the summary or total is
nil or zero; otherwise utilization = used×100/total computed in Go `int32`
arithmetic (the product wraps modulo `2^32`, the division truncates toward
zero) and the high-utilization flag at ≥ 80. -/
def calculateCapacityMetrics (summary : Option SummaryV2) : PoolCapacity :=
  match summary with
  | none => {}
  | some s =>
    match s.total? with
    | none => {}
    | some total =>
      if total = 0 then {}
      else
        let used := match s.used? with | some u => u | none => 0
        let utilizationPercent := int32Div (int32Mul used 100) total
        { utilizationPercent := some utilizationPercent,
          highUtilization := some (decide (utilizationPercent ≥ 80)) }

/-- `updateExhaustedCondition`: the condition written for a given capacity —
status True with reason `PoolExhausted` at utilization ≥ 100, status True
with reason `NearlyExhausted` at ≥ 90, otherwise status False with reason
`CapacityAvailable`. -/
def updateExhaustedCondition (capacity : Option PoolCapacity) : PoolCondition :=
  let base : PoolCondition :=
    ⟨"Exhausted", false, "CapacityAvailable", "Pool has available capacity"⟩
  match capacity with
  | none => base
  | some c =>
    match c.utilizationPercent with
    | none => base
    | some utilization =>
      if utilization ≥ 100 then
        ⟨"Exhausted", true, "PoolExhausted", "Pool has no available capacity"⟩
      else if utilization ≥ 90 then
        ⟨"Exhausted", true, "NearlyExhausted",
          "Pool is " ++ intToStr utilization ++ "% utilized - approaching exhaustion"⟩
      else base

/-! ## The pool admission webhook (`validateUpdate` and its helpers) -/

/-- `PoolSpecToIPSet` (poolutil): the CIDR's full range, minus the gateway,
minus each exclude entry (CIDR entries as masked prefixes, single-IP entries
as one address, other forms skipped), minus the network and broadcast
addresses.  The v1alpha1 `SubnetSpec` is field-compatible with `SubnetSpec`
above. -/
def PoolSpecToIPSet (poolSpec : Option SubnetSpec) : Except String (List IPRange) :=
  match poolSpec with
  | none => .error "pool spec is nil"
  | some s =>
    match parsePrefix s.cidr with
    | none => .error ("failed to parse CIDR " ++ s.cidr)
    | some pfx =>
      let network := maskedBase pfx
      let broadcast := network + 2 ^ (32 - pfx.bits) - 1
      let set0 : List IPRange := [⟨network, broadcast⟩]
      let afterGw : Except String (List IPRange) :=
        if s.gateway = "" then .ok set0
        else
          match parseAddr s.gateway with
          | none => .error ("failed to parse gateway " ++ s.gateway)
          | some g => .ok (removeAddr set0 g)
      match afterGw with
      | .error e => .error e
      | .ok set1 =>
        let set2 := s.excludeRanges.foldl
          (fun acc ex =>
            match parsePrefix ex with
            | some p => removeRange acc (maskedBase p) (maskedBase p + 2 ^ (32 - p.bits) - 1)
            | none =>
              match parseAddr ex with
              | some ip => removeAddr acc ip
              | none => acc)
          set1
        .ok (removeAddr (removeAddr set2 network) broadcast)

/-- Webhook rejection outcomes of `validateUpdate`: a failed IP-set build, or
a `Forbidden` error naming the orphaned addresses. -/
inductive UpdateError where
  | buildFailed (msg : String)
  | forbidden (count : Nat) (orphans : List String)
deriving DecidableEq, Repr

/-- `buildNewPoolIPSet`: the IP set of the updated pool's *first* subnet, or
`none` when the pool declares no subnets. -/
def buildNewPoolIPSet (newPool : PoolSpec) : Except String (Option (List IPRange)) :=
  match newPool.subnets with
  | [] => .ok none
  | s0 :: _ =>
    match PoolSpecToIPSet (some s0) with
    | .error e => .error ("failed to build new pool IPSet: " ++ e)
    | .ok rs => .ok (some rs)

/-- `findOrphanedIPs`: bound addresses that parse and do not lie in the new
IP set (empty and unparseable addresses are skipped; a nil set orphans
nothing). -/
def findOrphanedIPs (addresses : List IPAddress) (newIPSet? : Option (List IPRange)) :
    List String :=
  addresses.foldl
    (fun acc addr =>
      if addr.address = "" then acc
      else
        match parseAddr addr.address with
        | none => acc
        | some ip =>
          match newIPSet? with
          | some rs => if ¬ rangesContains rs ip then acc ++ [addr.address] else acc
          | none => acc)
    []

/-- `validateUpdate` (webhook): with no bound addresses the update is safe;
otherwise reject with `Forbidden` naming the orphaned IPs, if any.  The
store's `ListAddressesInUse` result is passed in as `addresses`. -/
def validateUpdate (addresses : List IPAddress) (newPool : PoolSpec) : Except UpdateError Unit :=
  if addresses.length = 0 then .ok ()
  else
    match buildNewPoolIPSet newPool with
    | .error e => .error (.buildFailed e)
    | .ok newIPSet? =>
      let orphanedIPs := findOrphanedIPs addresses newIPSet?
      if orphanedIPs.length > 0 then .error (.forbidden orphanedIPs.length orphanedIPs)
      else .ok ()

/-! ## Concrete claim scenarios -/

/-- C1: for a pool whose only subnet is CIDR `10.1.40.0/24` with gateway
`10.1.40.1`, no exclude ranges, no PreAllocation, no request annotation, and
empty bound-address and static-assignment lists, dynamic allocation succeeds
and returns `10.1.40.2` (with prefix 24 and gateway `10.1.40.1`). -/
theorem C1_dynamic_returns_first_free :
    allocateNextIP (some { subnets := [{ cidr := "10.1.40.0/24", gateway := "10.1.40.1" }] })
      (some { name := "test-claim" }) [] [] = .ok ("10.1.40.2", 24, "10.1.40.1") := by
  decide

/-- C2 counterexample: the address requested via the claim's `ipAddress`
annotation is bound to the *same* claim (`cp-0`), yet `Resolve` fails with
the requested-conflict error instead of succeeding with the address — the
annotation tier has no same-claim reuse tolerance. -/
theorem C2_counterexample_annotation_no_reuse :
    allocateNextIP (some { subnets := [{ cidr := "10.1.40.0/24", gateway := "10.1.40.1" }] })
      (some { name := "cp-0", annotations := [("ipAddress", "10.1.40.9")] }) []
      [{ nsName := "d", address := "10.1.40.9", claimRefName := "cp-0" }]
      = .error (.requestedConflict "10.1.40.9") := by
  decide

/-- C3 counterexample: the external static assignment of the requested
address carries exactly this claim's deterministically derived MAC, yet the
requested tier still fails with the UniFi-conflict error — the same-MAC
reuse tolerance does not apply in this tier. -/
theorem C3_counterexample_same_mac_still_conflict :
    (StaticAssignment.mk "10.1.40.9" (generateMACForClaim "c") "h").mac
        = generateMACForClaim "c" ∧
      allocateNextIP (some { subnets := [{ cidr := "10.1.40.0/24", gateway := "10.1.40.1" }] })
        (some { name := "c", annotations := [("ipAddress", "10.1.40.9")] })
        [StaticAssignment.mk "10.1.40.9" (generateMACForClaim "c") "h"] []
        = .error (.requestedUnifiConflict "10.1.40.9") := by
  exact ⟨rfl, by decide⟩

/-- C4 counterexample: the subnet's exclude ranges contain `10.1.40.2`, yet
dynamic allocation returns exactly that address — the dynamic tier never
consults `ExcludeRanges`. -/
theorem C4_counterexample_exclude_ranges_ignored :
    allocateNextIP
        (some { subnets :=
          [{ cidr := "10.1.40.0/24", gateway := "10.1.40.1", excludeRanges := ["10.1.40.2"] }] })
        (some { name := "test-claim" }) [] [] = .ok ("10.1.40.2", 24, "10.1.40.1") ∧
      "10.1.40.2" ∈ SubnetSpec.excludeRanges
        { cidr := "10.1.40.0/24", gateway := "10.1.40.1", excludeRanges := ["10.1.40.2"] } := by
  decide

/-- C5 counterexample: (a) for the valid but unmasked CIDR `10.1.40.5/24`,
enumeration starts at `10.1.40.6` (base+1), not at the first usable address
`10.1.40.1` (network+1); (b) for the valid CIDR `10.0.0.4/31`, index 0 yields
`10.0.0.5`, the last (broadcast) address of the prefix. -/
theorem C5_counterexample_unmasked_and_slash31 :
    (GetIPAddress { cidr := "10.1.40.5/24" } 24 0 = .ok (some 167847942) ∧
        parsePrefix "10.1.40.5/24" = some ⟨167847941, 24⟩ ∧
        maskedBase ⟨167847941, 24⟩ + 1 = 167847937 ∧ (167847942 : Nat) ≠ 167847937) ∧
      (GetIPAddress { cidr := "10.0.0.4/31" } 24 0 = .ok (some 167772165) ∧
        parsePrefix "10.0.0.4/31" = some ⟨167772164, 31⟩ ∧
        maskedBase ⟨167772164, 31⟩ + 2 ^ (32 - 31) - 1 = 167772165) := by
  decide

/-- C6 counterexample: a subnet in CIDR form with no per-subnet prefix
override resolves to the CIDR-implied bits (16), not to the pool-level
default (24) — the CIDR takes precedence over the pool default, contrary to
the claimed order. -/
theorem C6_counterexample_cidr_beats_default :
    GetPrefix { cidr := "10.0.0.0/16" } 24 = 16 ∧ (16 : Int) ≠ 24 := by
  decide

/-- C7 counterexample: for the single-range set `10.0.0.1`–`10.0.1.254`
(510 addresses) and no bound addresses, the recomputed total is 254 — the
per-range count uses byte arithmetic on the last octet only. -/
theorem C7_counterexample_total_last_octet_only :
    (ComputePoolStatus (some [⟨167772161, 167772670⟩]) [] "ns").total = 254 ∧
      rangesSize [⟨167772161, 167772670⟩] = 510 ∧ (254 : Int) ≠ 510 := by
  decide

/-- C8 counterexample: at utilization 95% (< 100%) the Exhausted condition is
written with status True (reason `NearlyExhausted`), not merely a warning
with the condition left false. -/
theorem C8_counterexample_exhausted_true_below_100 :
    (updateExhaustedCondition
        (some { utilizationPercent := some 95, highUtilization := some true })).status = true ∧
      (updateExhaustedCondition
        (some { utilizationPercent := some 95, highUtilization := some true })).reason
          = "NearlyExhausted" ∧ (95 : Int) < 100 := by
  decide

/-- C9: the claim controller's `generateMACAddress` derives the registered
MAC from the *length* of the claim name alone: the distinct names `cp-0` and
`cp-1` collide on `00:00:00:00:00:04`, whose first octet `00` does not carry
the locally-administered bit; the SHA-256-based `generateMACForClaim` used by
the conflict checks keeps them distinct. -/
theorem C9_length_based_mac_collides :
    generateMACAddress "cp-0" = "00:00:00:00:00:04" ∧
      generateMACAddress "cp-1" = "00:00:00:00:00:04" ∧
      "cp-0" ≠ "cp-1" ∧
      generateMACForClaim "cp-0" = "02:96:d9:0d:64:02" ∧
      generateMACForClaim "cp-1" ≠ generateMACForClaim "cp-0" := by
  decide

/-! ## Enumeration lemmas for the CIDR form -/

/-- A parsed dotted-quad field is at most 255. -/
theorem parseOctet_le {cs : List Char} {n : Nat} (h : parseOctet cs = some n) : n ≤ 255 := by
  unfold parseOctet at h
  repeat split at h
  all_goals simp_all
  omega

/-- A parsed IPv4 address value is below `2^32`. -/
theorem parseAddrChars_lt {cs : List Char} {v : Nat} (h : parseAddrChars cs = some v) :
    v < 4294967296 := by
  unfold parseAddrChars at h
  split at h
  · split at h
    · rename_i a b c d ha hb hc hd
      have := parseOctet_le ha
      have := parseOctet_le hb
      have := parseOctet_le hc
      have := parseOctet_le hd
      injection h with h
      omega
    · exact absurd h (by simp)
  · exact absurd h (by simp)

/-- A parsed prefix has base below `2^32` and length at most 32. -/
theorem parsePrefix_inv {s : String} {p : IPPrefix} (h : parsePrefix s = some p) :
    p.base < 4294967296 ∧ p.bits ≤ 32 := by
  unfold parsePrefix at h
  split at h
  · split at h
    · rename_i b n hb hn
      split at h
      · injection h with h
        subst h
        exact ⟨parseAddrChars_lt hb, by assumption⟩
      · exact absurd h (by simp)
    · exact absurd h (by simp)
  · exact absurd h (by simp)

/-- The advance loop succeeds while the target stays at or below `last`. -/
theorem advanceAddr_ok (err : AddrErr) (l : Nat) (hl : l < 4294967296) :
    ∀ (i c : Nat), c + i ≤ l → advanceAddr (some l) err (some c) i = .ok (some (c + i)) := by
  intro i
  induction i with
  | zero => intro c _; simp [advanceAddr]
  | succ n ih =>
    intro c h
    have h1 : c + 1 < 4294967296 := by omega
    have h2 : ¬ l < c + 1 := by omega
    rw [advanceAddr]
    simp only [addrNext, if_pos h1, addrCompare, Option.isNone]
    rw [if_neg]
    · have := ih (c + 1) (by omega)
      rw [this]
      congr 2
      omega
    · simp [Nat.compare_eq_gt]
      omega

/-- The advance loop fails as soon as stepping would pass `last` (it never
wraps past it). -/
theorem advanceAddr_err (err : AddrErr) (l : Nat) :
    ∀ (i c : Nat), 1 ≤ i → l < c + i → advanceAddr (some l) err (some c) i = .error err := by
  intro i
  induction i with
  | zero => omega
  | succ n ih =>
    intro c _ h
    rw [advanceAddr]
    by_cases h1 : c + 1 < 4294967296
    · simp only [addrNext, if_pos h1, addrCompare, Option.isNone]
      by_cases h2 : l < c + 1
      · rw [if_pos]
        simp [Nat.compare_eq_gt]
        omega
      · rw [if_neg]
        · exact ih (c + 1) (by omega) (by omega)
        · simp [Nat.compare_eq_gt]
          omega
    · simp [addrNext, if_neg h1]

/-- The saturating walk of `lastUsableIP` in closed form. -/
theorem advanceSat_eq : ∀ (k c : Nat), c < 4294967296 →
    advanceSat c k = min (c + k) 4294967295 := by
  intro k
  induction k with
  | zero => intro c hc; simp [advanceSat]; omega
  | succ n ih =>
    intro c hc
    rw [advanceSat]
    by_cases h1 : c + 1 < 4294967296
    · simp only [addrNext, if_pos h1]
      rw [ih (c + 1) h1]
      congr 1
      omega
    · simp only [addrNext, if_neg h1]
      omega

/-- `lastUsableIP` of a masked IPv4 prefix of length at most 30. -/
theorem lastUsableIP_eq {b bits : Nat} (hb : b < 4294967296)
    (hmask : b % 2 ^ (32 - bits) = 0) (hbits : bits ≤ 30) :
    lastUsableIP ⟨b, bits⟩ = some (b + 2 ^ (32 - bits) - 2) := by
  have h2 : 32 - bits ≥ 2 := by omega
  have h4 : 4 ≤ 2 ^ (32 - bits) := by
    calc (4 : Nat) = 2 ^ 2 := by norm_num
    _ ≤ 2 ^ (32 - bits) := Nat.pow_le_pow_right (by omega) h2
  have h32 : 32 - bits + bits = 32 := by omega
  have hpow : (2 : Nat) ^ (32 - bits) * 2 ^ bits = 4294967296 := by
    rw [← Nat.pow_add, h32]
  obtain ⟨k, hk⟩ := Nat.dvd_of_mod_eq_zero hmask
  have hk_lt : k < 2 ^ bits := by
    by_contra hge
    push_neg at hge
    have := Nat.mul_le_mul_left (2 ^ (32 - bits)) hge
    omega
  have hble : b + 2 ^ (32 - bits) ≤ 4294967296 := by
    have hm := Nat.mul_le_mul_left (2 ^ (32 - bits)) (Nat.succ_le_of_lt hk_lt)
    rw [Nat.mul_succ] at hm
    omega
  unfold lastUsableIP maskedBase
  simp only [hmask, Nat.sub_zero]
  rw [advanceSat_eq _ _ hb]
  have hmin : min (b + (2 ^ (32 - bits) - 1)) 4294967295 = b + 2 ^ (32 - bits) - 1 := by
    omega
  rw [hmin]
  simp only [addrPrev]
  rw [if_neg (by omega)]
  all_goals exact congrArg some (by omega)

/-- A masked base plus its block size stays within the IPv4 space. -/
theorem maskedBlock_le {b bits : Nat} (hb : b < 4294967296)
    (hmask : b % 2 ^ (32 - bits) = 0) (hbits : bits ≤ 32) :
    b + 2 ^ (32 - bits) ≤ 4294967296 := by
  have h32 : 32 - bits + bits = 32 := by omega
  have hpow : (2 : Nat) ^ (32 - bits) * 2 ^ bits = 4294967296 := by
    rw [← Nat.pow_add, h32]
  obtain ⟨k, hk⟩ := Nat.dvd_of_mod_eq_zero hmask
  have hk_lt : k < 2 ^ bits := by
    by_contra hge
    push_neg at hge
    have := Nat.mul_le_mul_left (2 ^ (32 - bits)) hge
    omega
  have hm := Nat.mul_le_mul_left (2 ^ (32 - bits)) (Nat.succ_le_of_lt hk_lt)
  rw [Nat.mul_succ] at hm
  omega

/-- Closed form of `getIPFromCIDR` for a masked CIDR of length at most 30:
the address at index `i` is `base + 1 + i` while that stays at or below the
last usable address, and the out-of-range error afterwards. -/
theorem getIPFromCIDR_closed {cidr : String} {b bits : Nat}
    (hp : parsePrefix cidr = some ⟨b, bits⟩)
    (hmask : b % 2 ^ (32 - bits) = 0) (hbits : bits ≤ 30) (i : Nat) :
    (i ≤ 2 ^ (32 - bits) - 3 → getIPFromCIDR cidr i = .ok (some (b + 1 + i))) ∧
      (2 ^ (32 - bits) - 3 < i → getIPFromCIDR cidr i = .error (.cidrOutOfRange i cidr)) := by
  have hb : b < 4294967296 := (parsePrefix_inv hp).1
  have h2 : 32 - bits ≥ 2 := by omega
  have h4 : 4 ≤ 2 ^ (32 - bits) := by
    calc (4 : Nat) = 2 ^ 2 := by norm_num
    _ ≤ 2 ^ (32 - bits) := Nat.pow_le_pow_right (by omega) h2
  have hble := maskedBlock_le hb hmask (by omega)
  have hfirst : firstUsableIP ⟨b, bits⟩ = some (b + 1) := by
    show (if b + 1 < 4294967296 then some (b + 1) else none) = some (b + 1)
    rw [if_pos (by omega)]
  have hlast := lastUsableIP_eq hb hmask hbits
  unfold getIPFromCIDR
  rw [hp]
  simp only [hfirst, hlast]
  constructor
  · intro hle
    rw [advanceAddr_ok _ _ (by omega) i (b + 1) (by omega)]
  · intro hgt
    rw [advanceAddr_err _ _ i (b + 1) (by omega) (by omega)]

/-- C5 (amended): for every subnet in CIDR form whose CIDR parses to a
*masked* (network-form) IPv4 prefix of length at most 30: `AddressAt` at
index 0 is the first usable address (network address + 1, which is also
`firstUsableIP`); every successfully enumerated address lies strictly
between the network and broadcast addresses; and every index at or past the
subnet's usable size yields the out-of-range error — enumeration never
wraps.  (The unmasked and /31–/32 cases genuinely escape these properties,
see the counterexample.) -/
theorem C5_cidr_enumeration (s : SubnetSpec) (dp : Int) (b bits : Nat)
    (hp : parsePrefix s.cidr = some ⟨b, bits⟩)
    (hmask : b % 2 ^ (32 - bits) = 0) (hbits : bits ≤ 30) :
    (GetIPAddress s dp 0 = .ok (some (b + 1)) ∧ firstUsableIP ⟨b, bits⟩ = some (b + 1)) ∧
      (∀ i a, GetIPAddress s dp i = .ok a →
        ∃ v, a = some v ∧ b < v ∧ v < b + 2 ^ (32 - bits) - 1) ∧
      (∀ i, 2 ^ (32 - bits) - 2 ≤ i → GetIPAddress s dp i = .error (.cidrOutOfRange i s.cidr)) := by
  have hb : b < 4294967296 := (parsePrefix_inv hp).1
  have h2 : 32 - bits ≥ 2 := by omega
  have h4 : 4 ≤ 2 ^ (32 - bits) := by
    calc (4 : Nat) = 2 ^ 2 := by norm_num
    _ ≤ 2 ^ (32 - bits) := Nat.pow_le_pow_right (by omega) h2
  have hble := maskedBlock_le hb hmask (by omega)
  have hemp : parsePrefix "" = none := by decide
  have hcne : s.cidr ≠ "" := by
    intro hc
    rw [hc, hemp] at hp
    exact absurd hp (by simp)
  have hget : ∀ i : Nat, GetIPAddress s dp i = getIPFromCIDR s.cidr i := by
    intro i
    unfold GetIPAddress
    rw [if_pos hcne]
  refine ⟨⟨?_, ?_⟩, ?_, ?_⟩
  · rw [hget 0, (getIPFromCIDR_closed hp hmask hbits 0).1 (by omega)]
  · show (if b + 1 < 4294967296 then some (b + 1) else none) = some (b + 1)
    rw [if_pos (by omega)]
  · intro i a h
    rw [hget i] at h
    by_cases hi : i ≤ 2 ^ (32 - bits) - 3
    · rw [(getIPFromCIDR_closed hp hmask hbits i).1 hi] at h
      injection h with h
      exact ⟨b + 1 + i, h.symm, by omega, by omega⟩
    · rw [(getIPFromCIDR_closed hp hmask hbits i).2 (by omega)] at h
      exact absurd h (by simp)
  · intro i hi
    rw [hget i, (getIPFromCIDR_closed hp hmask hbits i).2 (by omega)]

/-- Witness for `C5_cidr_enumeration` at the subnet `10.1.40.0/24`: index 0
is `10.1.40.1` and index 254 (the first index past the last usable address)
is the out-of-range error. -/
theorem C5_cidr_enumeration_witness :
    GetIPAddress { cidr := "10.1.40.0/24" } 24 0 = .ok (some 167847937) ∧
      GetIPAddress { cidr := "10.1.40.0/24" } 24 254
        = .error (.cidrOutOfRange 254 "10.1.40.0/24") := by
  have h := C5_cidr_enumeration { cidr := "10.1.40.0/24" } 24 167847936 24
    (by decide) (by decide) (by decide)
  exact ⟨h.1.1, h.2.2 254 (by norm_num)⟩

/-! ## Lemmas about the allocation tiers -/

/-- Inversion of `IPInSubnets`: the string parses and some subnet contains it. -/
theorem IPInSubnets_inv {ip : String} {subnets : List SubnetSpec} {dp : Int}
    (h : IPInSubnets ip subnets dp = true) :
    ∃ v, parseAddr ip = some v ∧ subnets.any (inSubnet v) = true := by
  unfold IPInSubnets at h
  split at h
  · exact absurd h (by simp)
  · exact ⟨_, by assumption, h⟩

/-- The metadata loop finds a subnet whenever the address parses and some
subnet contains it. -/
theorem findSubnetMeta_isSome {ip : String} {dp : Int} {gw : String} {v : Nat}
    (hv : parseAddr ip = some v) :
    ∀ subnets : List SubnetSpec, subnets.any (inSubnet v) = true →
      (findSubnetMeta ip subnets dp gw).isSome = true := by
  intro subnets
  induction subnets with
  | nil => intro hin; simp at hin
  | cons s rest ih =>
    intro hin
    rw [findSubnetMeta, hv]
    simp only
    simp only [List.any_cons, Bool.or_eq_true] at hin
    by_cases hs : inSubnet v s = true
    · rw [if_pos hs]
      rfl
    · rw [if_neg hs]
      exact ih (hin.resolve_left hs)

/-- A non-empty `any` witness forces a non-zero list length. -/
theorem length_ne_zero_of_any {α : Type} {l : List α} {p : α → Bool}
    (h : l.any p = true) : ¬ l.length = 0 := by
  rcases List.any_eq_true.mp h with ⟨x, hx, _⟩
  intro hlen
  rw [List.length_eq_zero] at hlen
  subst hlen
  simp at hx

/-- C2 (amended): if the address pinned for a claim through
`pool.PreAllocations[claim.name]` is already bound to the same claim among
the currently bound addresses (and every binding of that address is to this
claim, and any UniFi static assignment of it carries the claim's derived
MAC), `Resolve` succeeds and returns that address rather than failing
`Conflict`.  (The annotation-requested tier has no such reuse tolerance —
see the counterexample.) -/
theorem C2_pinned_reuse (pool : PoolSpec) (claim : ClaimSpec) (pinned : String)
    (staticAssignments : List StaticAssignment) (addressesInUse : List IPAddress)
    (hpre : pool.preAllocations.lookup claim.name = some pinned)
    (hin : IPInSubnets pinned pool.subnets (defaultPrefixOf pool) = true)
    (hbound : ∀ a ∈ addressesInUse, a.address = pinned → a.claimRefName = claim.name)
    (hreuse : ∃ a ∈ addressesInUse, a.address = pinned ∧ a.claimRefName = claim.name)
    (hstatic : ∀ sa ∈ staticAssignments, sa.ip = pinned →
      sa.mac = generateMACForClaim claim.name) :
    ∃ p g, allocateNextIP (some pool) (some claim) staticAssignments addressesInUse
      = .ok (pinned, p, g) := by
  obtain ⟨v, hv, hany⟩ := IPInSubnets_inv hin
  have hfind1 : addressesInUse.find?
      (fun a => a.address == pinned && a.claimRefName != claim.name) = none := by
    rw [List.find?_eq_none]
    intro a ha
    simp only [Bool.and_eq_true, beq_iff_eq, bne_iff_ne, ne_eq, not_and]
    intro haddr
    simp [hbound a ha haddr]
  have hfind2 : staticAssignments.find?
      (fun sa => sa.ip == pinned && sa.mac != generateMACForClaim claim.name) = none := by
    rw [List.find?_eq_none]
    intro sa hsa
    simp only [Bool.and_eq_true, beq_iff_eq, bne_iff_ne, ne_eq, not_and]
    intro hip
    simp [hstatic sa hsa hip]
  have hmeta := @findSubnetMeta_isSome pinned (defaultPrefixOf pool) pool.gateway v
    hv pool.subnets hany
  obtain ⟨⟨p, g⟩, hm⟩ := Option.isSome_iff_exists.mp hmeta
  refine ⟨p, g, ?_⟩
  have hlen : ¬ pool.subnets.length = 0 := length_ne_zero_of_any hany
  simp only [allocateNextIP, if_neg hlen, hpre, tier1Pinned, if_neg (by simp [hin] :
    ¬ ¬ IPInSubnets pinned pool.subnets (defaultPrefixOf pool) = true), hfind1, hfind2, hm]

/-- Witness for `C2_pinned_reuse`: pool pinning `cp-0 ↦ 10.1.40.10`, the
address already bound to claim `cp-0`, no static assignments. -/
theorem C2_pinned_reuse_witness :
    ∃ p g, allocateNextIP
        (some { subnets := [{ cidr := "10.1.40.0/24", gateway := "10.1.40.1" }],
                preAllocations := [("cp-0", "10.1.40.10")] })
        (some { name := "cp-0" }) []
        [{ nsName := "d", address := "10.1.40.10", claimRefName := "cp-0" }]
        = .ok ("10.1.40.10", p, g) :=
  C2_pinned_reuse _ _ "10.1.40.10" _ _
    (by decide) (by decide) (by decide)
    ⟨{ nsName := "d", address := "10.1.40.10", claimRefName := "cp-0" }, by decide, by decide⟩
    (by decide)

/-- C3 (amended): in the requested-annotation tier, an existing binding of
the requested address to *any* claim (including the same claim) fails with
the requested-conflict error, and an external static assignment of the
requested address is likewise a hard failure regardless of its MAC — the
same-MAC reuse tolerance of the pinned tier does not apply here. -/
theorem C3_requested_hard_conflicts (pool : PoolSpec) (claim : ClaimSpec) (req : String)
    (staticAssignments : List StaticAssignment) (addressesInUse : List IPAddress)
    (hpre : pool.preAllocations.lookup claim.name = none)
    (hann : claim.annotations.lookup "ipAddress" = some req)
    (hne : req ≠ "")
    (hin : IPInSubnets req pool.subnets (defaultPrefixOf pool) = true) :
    ((∃ a ∈ addressesInUse, a.address = req) →
        allocateNextIP (some pool) (some claim) staticAssignments addressesInUse
          = .error (.requestedConflict req)) ∧
      ((∀ a ∈ addressesInUse, a.address ≠ req) →
        (∃ sa ∈ staticAssignments, sa.ip = req) →
          allocateNextIP (some pool) (some claim) staticAssignments addressesInUse
            = .error (.requestedUnifiConflict req)) := by
  obtain ⟨v, hv, hany⟩ := IPInSubnets_inv hin
  have hstep : ∀ rest : Except AllocError (String × Int × String),
      True := fun _ => trivial
  constructor
  · intro hex
    have hfind : (addressesInUse.find? (fun a => a.address == req)).isSome = true := by
      rw [List.find?_isSome]
      obtain ⟨a, ha, haddr⟩ := hex
      exact ⟨a, ha, by simp [haddr]⟩
    obtain ⟨a, hfa⟩ := Option.isSome_iff_exists.mp hfind
    have hlen : ¬ pool.subnets.length = 0 := length_ne_zero_of_any hany
    simp only [allocateNextIP, if_neg hlen, hpre, tier2Requested, hann, if_neg hne,
      if_neg (by simp [hin] :
        ¬ ¬ IPInSubnets req pool.subnets (defaultPrefixOf pool) = true), hfa]
  · intro hall hex
    have hfind1 : addressesInUse.find? (fun a => a.address == req) = none := by
      rw [List.find?_eq_none]
      intro a ha
      simp [hall a ha]
    have hfind2 : (staticAssignments.find? (fun sa => sa.ip == req)).isSome = true := by
      rw [List.find?_isSome]
      obtain ⟨sa, hsa, hip⟩ := hex
      exact ⟨sa, hsa, by simp [hip]⟩
    obtain ⟨sa, hfa⟩ := Option.isSome_iff_exists.mp hfind2
    have hlen : ¬ pool.subnets.length = 0 := length_ne_zero_of_any hany
    simp only [allocateNextIP, if_neg hlen, hpre, tier2Requested, hann, if_neg hne,
      if_neg (by simp [hin] :
        ¬ ¬ IPInSubnets req pool.subnets (defaultPrefixOf pool) = true), hfind1, hfa]

/-- Witness for `C3_requested_hard_conflicts`: requested `10.1.40.9` bound to
the requesting claim itself is still a conflict, and a static assignment
carrying the claim's own derived MAC is still a conflict. -/
theorem C3_requested_hard_conflicts_witness :
    allocateNextIP
        (some { subnets := [{ cidr := "10.1.40.0/24", gateway := "10.1.40.1" }] })
        (some { name := "c", annotations := [("ipAddress", "10.1.40.9")] })
        [{ ip := "10.1.40.9", mac := generateMACForClaim "c", hostname := "h" }] []
        = .error (.requestedUnifiConflict "10.1.40.9") :=
  (C3_requested_hard_conflicts
      { subnets := [{ cidr := "10.1.40.0/24", gateway := "10.1.40.1" }] }
      { name := "c", annotations := [("ipAddress", "10.1.40.9")] } "10.1.40.9"
      [{ ip := "10.1.40.9", mac := generateMACForClaim "c", hostname := "h" }] []
      (by decide) (by decide) (by decide) (by decide)).2
    (by simp)
    ⟨{ ip := "10.1.40.9", mac := generateMACForClaim "c", hostname := "h" }, by simp, rfl⟩

/-! ## Lemmas about the dynamic tier -/

/-- The per-subnet scan returns nothing when every enumerable candidate is
the gateway or already allocated. -/
theorem scanSubnet_none {s : SubnetSpec} {dp : Int} {gw : String} {alloc : String → Bool}
    (h : ∀ i a, GetIPAddress s dp i = .ok a →
      (addrString a == gw) = true ∨ alloc (addrString a) = true) :
    ∀ fuel index, scanSubnet s dp gw alloc fuel index = none := by
  intro fuel
  induction fuel with
  | zero => intro idx; rw [scanSubnet]
  | succ n ih =>
    intro idx
    rw [scanSubnet]
    cases hga : GetIPAddress s dp idx with
    | error e => rfl
    | ok a =>
      simp only
      by_cases hg : (addrString a == gw) = true
      · rw [if_pos hg]
        exact ih _
      · rw [if_neg hg, if_pos ((h idx a hga).resolve_left hg)]
        exact ih _

/-- A successful per-subnet scan never returns the gateway it was told to
skip. -/
theorem scanSubnet_ok_ne_gateway {s : SubnetSpec} {dp : Int} {gw : String}
    {alloc : String → Bool} :
    ∀ fuel index ip, scanSubnet s dp gw alloc fuel index = some ip → (ip == gw) = false := by
  intro fuel
  induction fuel with
  | zero =>
    intro idx ip h
    rw [scanSubnet] at h
    exact absurd h (by simp)
  | succ n ih =>
    intro idx ip h
    rw [scanSubnet] at h
    split at h
    · exact absurd h (by simp)
    · split at h
      · exact ih _ _ h
      · split at h
        · exact ih _ _ h
        · injection h with h
          subst h
          rename_i hg _
          simpa using hg

/-- The dynamic loop returns nothing when every subnet is fully excluded. -/
theorem dynamicLoop_none {dp : Int} {poolGw : String} {alloc : String → Bool} :
    ∀ subnets : List SubnetSpec,
      (∀ s ∈ subnets, ∀ i a, GetIPAddress s dp i = .ok a →
        (addrString a == GetGateway s poolGw) = true ∨ alloc (addrString a) = true) →
      dynamicLoop subnets dp poolGw alloc = none := by
  intro subnets
  induction subnets with
  | nil => intro _; rfl
  | cons s rest ih =>
    intro h
    rw [dynamicLoop]
    rw [scanSubnet_none (h s (List.mem_cons_self s rest))]
    exact ih fun s' hs' => h s' (List.mem_cons_of_mem _ hs')

/-- A successful dynamic loop pairs the address with the effective gateway of
the subnet it came from, and the address differs from that gateway. -/
theorem dynamicLoop_ok_ne_gateway {dp : Int} {poolGw : String} {alloc : String → Bool} :
    ∀ (subnets : List SubnetSpec) (ip : String) (p : Int) (g : String),
      dynamicLoop subnets dp poolGw alloc = some (ip, p, g) → (ip == g) = false := by
  intro subnets
  induction subnets with
  | nil =>
    intro ip p g h
    exact absurd h (by simp [dynamicLoop])
  | cons s rest ih =>
    intro ip p g h
    rw [dynamicLoop] at h
    split at h
    · rename_i ip0 hscan
      injection h with h
      have h1 : ip0 = ip := congrArg Prod.fst h
      have h3 : GetGateway s poolGw = g := congrArg (fun t => t.2.2) h
      rw [← h1, ← h3]
      exact scanSubnet_ok_ne_gateway _ _ _ hscan
    · exact ih ip p g h

/-- C4 (amended): when neither the pinned nor the requested tier applies, if
every subnet's enumerable candidate is the subnet's effective gateway or
already spoken for (bound in-store or statically assigned externally),
`Resolve` fails `PoolExhausted`; and a successful dynamic `Resolve` never
returns its subnet's effective gateway.  (Configured exclude ranges are not
consulted by dynamic allocation — see the counterexample.) -/
theorem C4_pool_exhaustion (pool : PoolSpec) (claim : ClaimSpec)
    (staticAssignments : List StaticAssignment) (addressesInUse : List IPAddress)
    (hsub : pool.subnets ≠ [])
    (hpre : pool.preAllocations.lookup claim.name = none)
    (hann : claim.annotations.lookup "ipAddress" = none) :
    ((∀ s ∈ pool.subnets, ∀ i a, GetIPAddress s (defaultPrefixOf pool) i = .ok a →
        (addrString a == GetGateway s pool.gateway) = true ∨
          (addressesInUse.any (fun x => x.address == addrString a)
            || staticAssignments.any (fun sa => sa.ip == addrString a)) = true) →
      allocateNextIP (some pool) (some claim) staticAssignments addressesInUse
        = .error .poolExhausted) ∧
      (∀ ip p g, allocateNextIP (some pool) (some claim) staticAssignments addressesInUse
        = .ok (ip, p, g) → ip ≠ g) := by
  have hlen : ¬ pool.subnets.length = 0 := by
    simpa [List.length_eq_zero] using hsub
  have halloc : allocateNextIP (some pool) (some claim) staticAssignments addressesInUse
      = tier3Dynamic pool (defaultPrefixOf pool) staticAssignments addressesInUse := by
    simp only [allocateNextIP, if_neg hlen, hpre, tier2Requested, hann]
  constructor
  · intro h
    rw [halloc]
    unfold tier3Dynamic
    rw [dynamicLoop_none pool.subnets h]
  · intro ip p g hok
    rw [halloc] at hok
    unfold tier3Dynamic at hok
    split at hok
    · rename_i t ht
      injection hok with hok
      subst hok
      have := dynamicLoop_ok_ne_gateway pool.subnets ip p g ht
      simpa using this
    · exact absurd hok (by simp)

/-- The two-address range subnet used for the exhaustion witness. -/
def exhSubnet : SubnetSpec := { start := "10.1.50.10", endAddr := "10.1.50.11" }

/-- The exhaustion-witness pool: its effective gateway is the range's first
address. -/
def exhPool : PoolSpec := { subnets := [exhSubnet], gateway := "10.1.50.10" }

/-- The exhaustion-witness bound addresses: the range's second address is
taken by another claim. -/
def exhBound : List IPAddress :=
  [{ nsName := "d", address := "10.1.50.11", claimRefName := "other" }]

/-- Witness for `C4_pool_exhaustion`: every candidate of the two-address
range is the gateway or already bound, so allocation fails `PoolExhausted`. -/
theorem C4_pool_exhaustion_witness :
    allocateNextIP (some exhPool) (some { name := "w" }) [] exhBound
      = .error .poolExhausted := by
  apply (C4_pool_exhaustion exhPool { name := "w" } [] exhBound
      (by decide) (by decide) (by decide)).1
  intro s hs i a hga
  rw [show exhPool.subnets = [exhSubnet] from rfl] at hs
  have hs' := List.mem_singleton.mp hs
  subst hs'
  match i with
  | 0 =>
    left
    have h0 : GetIPAddress exhSubnet (defaultPrefixOf exhPool) 0
        = .ok (some 167850506) := by decide
    rw [h0] at hga
    injection hga with hga
    subst hga
    decide
  | 1 =>
    right
    have h1 : GetIPAddress exhSubnet (defaultPrefixOf exhPool) 1
        = .ok (some 167850507) := by decide
    rw [h1] at hga
    injection hga with hga
    subst hga
    decide
  | (j + 2) =>
    exfalso
    have herr : GetIPAddress exhSubnet (defaultPrefixOf exhPool) (j + 2)
        = .error (.rangeOutOfRange (j + 2) "10.1.50.10" "10.1.50.11") := by
      show advanceAddr (some 167850507) (.rangeOutOfRange (j + 2) "10.1.50.10" "10.1.50.11")
        (some 167850506) (j + 2) = _
      exact advanceAddr_err _ _ (j + 2) 167850506 (by omega) (by omega)
    rw [herr] at hga
    exact absurd hga (by simp)

/-- C6 (amended): the effective prefix for a subnet is the per-subnet
override first, else — for subnets whose CIDR parses — the bit length
implied by the CIDR, else the pool-level default: the CIDR-implied bits take
precedence over the pool-level default, not the other way around.  The
effective gateway is the per-subnet override, else the pool-level default. -/
theorem C6_effective_prefix_gateway (s : SubnetSpec) (dp : Int) (dg : String) :
    (∀ p, s.prefixLen = some p → GetPrefix s dp = p) ∧
      (∀ pfx, s.prefixLen = none → parsePrefix s.cidr = some pfx →
        GetPrefix s dp = (pfx.bits : Int)) ∧
      (s.prefixLen = none → parsePrefix s.cidr = none → GetPrefix s dp = dp) ∧
      (s.gateway ≠ "" → GetGateway s dg = s.gateway) ∧
      (s.gateway = "" → GetGateway s dg = dg) := by
  refine ⟨?_, ?_, ?_, ?_, ?_⟩
  · intro p hp
    simp [GetPrefix, hp]
  · intro pfx hn hparse
    have hemp : parsePrefix "" = none := by decide
    have hcne : s.cidr ≠ "" := by
      intro hc
      rw [hc, hemp] at hparse
      exact absurd hparse (by simp)
    simp [GetPrefix, hn, hcne, hparse]
  · intro hn hparse
    by_cases hc : s.cidr = ""
    · simp [GetPrefix, hn, hc]
    · simp [GetPrefix, hn, hc, hparse]
  · intro hg
    simp [GetGateway, hg]
  · intro hg
    simp [GetGateway, hg]

/-- Witness for `C6_effective_prefix_gateway`: CIDR `10.0.0.0/16`, no
per-subnet prefix override, pool default 24 — the effective prefix is 16;
the subnet gateway override wins over the pool default. -/
theorem C6_effective_prefix_gateway_witness :
    GetPrefix { cidr := "10.0.0.0/16", gateway := "10.0.0.1" } 24 = 16 ∧
      GetGateway { cidr := "10.0.0.0/16", gateway := "10.0.0.1" } "10.9.9.9" = "10.0.0.1" := by
  have h := C6_effective_prefix_gateway
    { cidr := "10.0.0.0/16", gateway := "10.0.0.1" } 24 "10.9.9.9"
  exact ⟨h.2.1 ⟨167772160, 16⟩ rfl (by decide), h.2.2.2.1 (by decide)⟩

/-- `wrap32` is the identity on `int32`-representable values. -/
theorem wrap32_eq_of_mem {x : Int} (h1 : -2147483648 ≤ x) (h2 : x < 2147483648) :
    wrap32 x = x := by
  unfold wrap32
  omega

/-- A truncating quotient of a strictly `int32`-representable dividend is
itself `int32`-representable (this excludes the `MinInt32 / -1` wrap). -/
theorem tdiv_mem_int32 (t : Int) {x : Int} (h1 : -2147483648 < x) (h2 : x < 2147483648) :
    -2147483648 ≤ Int.tdiv x t ∧ Int.tdiv x t < 2147483648 := by
  have habs : (Int.tdiv x t).natAbs ≤ x.natAbs := by
    rw [Int.natAbs_tdiv]
    exact Nat.div_le_self _ _
  omega

/-- C8 (amended): utilization is used×100/total in Go `int32` arithmetic —
for used×100 within the `int32` range it equals used×100/total with
truncating division, while larger summary values wrap (used = total =
30,000,000 yields −43); the high-utilization flag is set exactly at
utilization ≥ 80; the `Exhausted` condition has status True with reason
`PoolExhausted` at utilization ≥ 100, status True with reason
`NearlyExhausted` at 90–99, and status False with reason
`CapacityAvailable` below 90 — its status is already True (not merely a
warning) from 90 on. -/
theorem C8_capacity_metrics_and_exhausted (t u v : Int) (hb : Bool) (ht : t ≠ 0)
    (hu : u.natAbs ≤ 21474836) :
    (calculateCapacityMetrics (some { total? := some t, used? := some u })).utilizationPercent = some (Int.tdiv (u * 100) t) ∧
      (calculateCapacityMetrics (some { total? := some t, used? := some u })).highUtilization = some (decide (Int.tdiv (u * 100) t ≥ 80)) ∧
      (calculateCapacityMetrics (some { total? := some 30000000, used? := some 30000000 })).utilizationPercent = some (-43) ∧
      ((updateExhaustedCondition (some { utilizationPercent := some v, highUtilization := some hb })).status = true ↔ 90 ≤ v) ∧
      ((updateExhaustedCondition (some { utilizationPercent := some v, highUtilization := some hb })).reason = "PoolExhausted" ↔ 100 ≤ v) ∧
      (90 ≤ v → v < 100 → (updateExhaustedCondition (some { utilizationPercent := some v, highUtilization := some hb })).reason = "NearlyExhausted") ∧
      (v < 90 → (updateExhaustedCondition (some { utilizationPercent := some v, highUtilization := some hb })).reason = "CapacityAvailable") := by
  have hx1 : -2147483648 < u * 100 := by omega
  have hx2 : u * 100 < 2147483648 := by omega
  have hmul : int32Mul u 100 = u * 100 := wrap32_eq_of_mem (by omega) hx2
  have hdivmem := tdiv_mem_int32 t hx1 hx2
  have hdiv : int32Div (u * 100) t = Int.tdiv (u * 100) t :=
    wrap32_eq_of_mem hdivmem.1 hdivmem.2
  have hcap : calculateCapacityMetrics (some { total? := some t, used? := some u })
      = { utilizationPercent := some (Int.tdiv (u * 100) t),
          highUtilization := some (decide (Int.tdiv (u * 100) t ≥ 80)) } := by
    simp only [calculateCapacityMetrics]
    rw [if_neg ht]
    rw [hmul, hdiv]
  refine ⟨by rw [hcap], by rw [hcap], by decide, ?_, ?_, ?_, ?_⟩
  all_goals
    simp only [updateExhaustedCondition]
  · by_cases h1 : v ≥ 100
    · rw [if_pos h1]
      simp only
      constructor
      · intro _; omega
      · intro _; trivial
    · rw [if_neg h1]
      by_cases h2 : v ≥ 90
      · rw [if_pos h2]
        simp only
        constructor
        · intro _; omega
        · intro _; trivial
      · rw [if_neg h2]
        simp only
        constructor
        · intro h; exact absurd h (by simp)
        · intro h; omega
  · by_cases h1 : v ≥ 100
    · rw [if_pos h1]
      simp only
      constructor
      · intro _; omega
      · intro _; trivial
    · rw [if_neg h1]
      by_cases h2 : v ≥ 90
      · rw [if_pos h2]
        simp only
        constructor
        · intro h; exact absurd h (by decide)
        · intro h; omega
      · rw [if_neg h2]
        simp only
        constructor
        · intro h; exact absurd h (by decide)
        · intro h; omega
  · intro h90 h100
    rw [if_neg (by omega), if_pos h90]
  · intro h90
    rw [if_neg (by omega), if_neg (by omega)]

/-- Witness for `C8_capacity_metrics_and_exhausted`: total 10, used 9 gives
utilization 90; at utilization 95 the Exhausted condition status is True
(reason `NearlyExhausted`); and the int32 wrap case used = total =
30,000,000 gives utilization −43. -/
theorem C8_capacity_metrics_and_exhausted_witness :
    (calculateCapacityMetrics (some { total? := some 10, used? := some 9 })).utilizationPercent = some 90 ∧
      (updateExhaustedCondition (some { utilizationPercent := some 95, highUtilization := some true })).status = true ∧
      (calculateCapacityMetrics (some { total? := some 30000000, used? := some 30000000 })).utilizationPercent = some (-43) := by
  have h := C8_capacity_metrics_and_exhausted 10 9 95 true (by decide) (by decide)
  refine ⟨?_, h.2.2.2.1.mpr (by omega), h.2.2.1⟩
  rw [h.1]
  rfl

/-! ## Lemmas for the status statistics -/

/-- A bound address whose string parses into the pool's set. -/
def inPoolSet (rs : List IPRange) (a : IPAddress) : Bool :=
  match parseAddr a.address with
  | some ip => rangesContains rs ip
  | none => false

/-- A bound address whose string parses outside the pool's set. -/
def outOfPoolSet (rs : List IPRange) (a : IPAddress) : Bool :=
  match parseAddr a.address with
  | some ip => ! rangesContains rs ip
  | none => false

/-- The counting fold of `ComputePoolStatus` in closed form, for addresses
in the pool's namespace with parseable address strings. -/
theorem countsFold_eq (rs : List IPRange) (ns : String) :
    ∀ (addrs : List IPAddress) (acc : Int × Int),
      (∀ a ∈ addrs, (ns = "" ∨ a.nsName = ns) ∧ (parseAddr a.address).isSome = true) →
      addrs.foldl
        (fun (uc : Int × Int) addr =>
          if ns ≠ "" ∧ addr.nsName ≠ ns then uc
          else if addr.address = "" then uc
          else
            match parseAddr addr.address with
            | none => uc
            | some ip => if rangesContains rs ip then (uc.1 + 1, uc.2) else (uc.1, uc.2 + 1))
        acc
      = (acc.1 + (addrs.countP (inPoolSet rs) : Int),
          acc.2 + (addrs.countP (outOfPoolSet rs) : Int)) := by
  intro addrs
  induction addrs with
  | nil =>
    intro acc _
    simp
  | cons a rest ih =>
    intro acc h
    obtain ⟨hns, hparse⟩ := h a (List.mem_cons_self a rest)
    obtain ⟨ip, hip⟩ := Option.isSome_iff_exists.mp hparse
    have hne : ¬ a.address = "" := by
      intro he
      rw [he, (show parseAddr "" = none by decide)] at hip
      exact absurd hip (by simp)
    have hnsc : ¬ (ns ≠ "" ∧ a.nsName ≠ ns) := by
      rcases hns with h | h
      · simp [h]
      · simp [h]
    rw [List.foldl_cons, if_neg hnsc, if_neg hne, hip]
    simp only
    have hrest : ∀ x ∈ rest, (ns = "" ∨ x.nsName = ns) ∧ (parseAddr x.address).isSome = true :=
      fun x hx => h x (List.mem_cons_of_mem _ hx)
    by_cases hc : rangesContains rs ip = true
    · rw [if_pos hc, ih (acc.1 + 1, acc.2) hrest]
      have hin : inPoolSet rs a = true := by simp [inPoolSet, hip, hc]
      have hout : outOfPoolSet rs a = false := by simp [outOfPoolSet, hip, hc]
      (simp [List.countP_cons, hin, hout]; omega)
    · rw [if_neg hc, ih (acc.1, acc.2 + 1) hrest]
      have hin : inPoolSet rs a = false := by
        simp only [inPoolSet, hip]
        simpa using hc
      have hout : outOfPoolSet rs a = true := by
        simp only [outOfPoolSet, hip]
        simpa using hc
      (simp [List.countP_cons, hin, hout]; omega)

/-- The per-range byte count agrees with the true range size for ranges that
stay inside one /24 block and span fewer than 255 addresses. -/
theorem totalFold_eq (rs : List IPRange)
    (h : ∀ r ∈ rs, r.lo ≤ r.hi ∧ r.hi / 256 = r.lo / 256 ∧ r.hi - r.lo < 255) :
    rs.foldl (fun acc r => acc + (((r.hi % 256 + 257 - r.lo % 256) % 256 : Nat) : Int)) 0
      = rangesSize rs := by
  unfold rangesSize
  have main : ∀ (l : List IPRange) (acc : Int),
      (∀ r ∈ l, r.lo ≤ r.hi ∧ r.hi / 256 = r.lo / 256 ∧ r.hi - r.lo < 255) →
      l.foldl (fun acc r => acc + (((r.hi % 256 + 257 - r.lo % 256) % 256 : Nat) : Int)) acc
        = l.foldl (fun acc r => acc + ((r.hi : Int) - (r.lo : Int) + 1)) acc := by
    intro l
    induction l with
    | nil => intro acc _; rfl
    | cons r rest ih =>
      intro acc hl
      obtain ⟨hle, hq, hspan⟩ := hl r (List.mem_cons_self r rest)
      have hbyte : ((r.hi % 256 + 257 - r.lo % 256) % 256 : Nat) = r.hi - r.lo + 1 := by
        omega
      rw [List.foldl_cons, List.foldl_cons, hbyte,
        ih _ (fun x hx => hl x (List.mem_cons_of_mem _ hx))]
      congr 1
      push_cast [Nat.cast_sub hle]
      ring
  exact main rs 0 h

/-- C7 (amended): for a pool address set whose ranges each stay within one
/24 block and span fewer than 255 addresses, and bound addresses in the
pool's namespace with parseable address strings, the recomputed statistics
satisfy: total = the number of addresses in the set, used = the bound
addresses lying in the set, out-of-range = the bound addresses lying outside
it, and free = total − used floored at 0.  (For a range crossing a /24
boundary the total is wrong — see the counterexample.) -/
theorem C7_status_statistics (rs : List IPRange) (addrs : List IPAddress) (ns : String)
    (hr : ∀ r ∈ rs, r.lo ≤ r.hi ∧ r.hi / 256 = r.lo / 256 ∧ r.hi - r.lo < 255)
    (ha : ∀ a ∈ addrs, (ns = "" ∨ a.nsName = ns) ∧ (parseAddr a.address).isSome = true) :
    (ComputePoolStatus (some rs) addrs ns).total = rangesSize rs ∧
      (ComputePoolStatus (some rs) addrs ns).used = (addrs.countP (inPoolSet rs) : Int) ∧
      (ComputePoolStatus (some rs) addrs ns).outOfRange
        = (addrs.countP (outOfPoolSet rs) : Int) ∧
      (ComputePoolStatus (some rs) addrs ns).free
        = max (rangesSize rs - (addrs.countP (inPoolSet rs) : Int)) 0 := by
  have hcounts := countsFold_eq rs ns addrs (0, 0) ha
  have htotal := totalFold_eq rs hr
  simp only [ComputePoolStatus, hcounts, htotal]
  refine ⟨trivial, by simp, by simp, ?_⟩
  split <;> omega

/-- Witness for `C7_status_statistics`: set `10.0.0.2`–`10.0.0.4` with one
in-range bound address and one out-of-range bound address. -/
theorem C7_status_statistics_witness :
    (ComputePoolStatus (some [⟨167772162, 167772164⟩])
        [{ nsName := "ns", address := "10.0.0.3", claimRefName := "a" },
          { nsName := "ns", address := "10.0.0.9", claimRefName := "b" }] "ns").total = 3 ∧
      (ComputePoolStatus (some [⟨167772162, 167772164⟩])
        [{ nsName := "ns", address := "10.0.0.3", claimRefName := "a" },
          { nsName := "ns", address := "10.0.0.9", claimRefName := "b" }] "ns").used = 1 ∧
      (ComputePoolStatus (some [⟨167772162, 167772164⟩])
        [{ nsName := "ns", address := "10.0.0.3", claimRefName := "a" },
          { nsName := "ns", address := "10.0.0.9", claimRefName := "b" }] "ns").outOfRange = 1 ∧
      (ComputePoolStatus (some [⟨167772162, 167772164⟩])
        [{ nsName := "ns", address := "10.0.0.3", claimRefName := "a" },
          { nsName := "ns", address := "10.0.0.9", claimRefName := "b" }] "ns").free = 2 := by
  have h := C7_status_statistics [⟨167772162, 167772164⟩]
    [{ nsName := "ns", address := "10.0.0.3", claimRefName := "a" },
      { nsName := "ns", address := "10.0.0.9", claimRefName := "b" }] "ns"
    (by decide) (by decide)
  refine ⟨?_, ?_, ?_, ?_⟩
  · rw [h.1]; decide
  · rw [h.2.1]; decide
  · rw [h.2.2.1]; decide
  · rw [h.2.2.2]; decide

/-! ## Lemmas for the admission webhook -/

/-- A bound address that the updated pool's IP set would orphan: it parses
and lies outside the set. -/
def isOrphan (rs : List IPRange) (a : IPAddress) : Bool :=
  match parseAddr a.address with
  | some ip => ! rangesContains rs ip
  | none => false

/-- `findOrphanedIPs` collects exactly the orphaned addresses, in order. -/
theorem findOrphanedIPs_eq (rs : List IPRange) (addrs : List IPAddress) :
    findOrphanedIPs addrs (some rs) = (addrs.filter (isOrphan rs)).map (fun a => a.address) := by
  unfold findOrphanedIPs
  have main : ∀ (l : List IPAddress) (acc : List String),
      l.foldl
        (fun acc addr =>
          if addr.address = "" then acc
          else
            match parseAddr addr.address with
            | none => acc
            | some ip =>
              match (some rs : Option (List IPRange)) with
              | some rs => if ¬ rangesContains rs ip then acc ++ [addr.address] else acc
              | none => acc)
        acc
      = acc ++ (l.filter (isOrphan rs)).map (fun a => a.address) := by
    intro l
    induction l with
    | nil => intro acc; simp
    | cons a rest ih =>
      intro acc
      rw [List.foldl_cons]
      by_cases he : a.address = ""
      · rw [if_pos he]
        have ho : isOrphan rs a = false := by
          unfold isOrphan
          rw [he, (show parseAddr "" = none by decide)]
        rw [ih acc, List.filter_cons, ho]
        simp
      · rw [if_neg he]
        cases hip : parseAddr a.address with
        | none =>
          simp only
          have ho : isOrphan rs a = false := by
            unfold isOrphan
            rw [hip]
          rw [ih acc, List.filter_cons, ho]
          simp
        | some ip =>
          simp only
          by_cases hc : rangesContains rs ip = true
          · rw [if_neg (by simp [hc])]
            have ho : isOrphan rs a = false := by
              unfold isOrphan
              rw [hip]
              simp [hc]
            rw [ih acc, List.filter_cons, ho]
            simp
          · rw [if_pos (by simp [hc])]
            have ho : isOrphan rs a = true := by
              unfold isOrphan
              rw [hip]
              simp [hc]
            rw [ih (acc ++ [a.address]), List.filter_cons, ho]
            simp
  exact main addrs []

/-- C10: admission-time update validation preserves the invariant that bound
addresses stay inside the pool's set: for an update to a pool with bound
addresses, where the updated pool's first subnet builds an IP set, the
update is rejected with a Forbidden error naming exactly the orphaned
(parseable, outside-the-set) bound addresses when any exist, and admitted
otherwise. -/
theorem C10_update_validation (addrs : List IPAddress) (newPool : PoolSpec)
    (s0 : SubnetSpec) (rest : List SubnetSpec) (rs : List IPRange)
    (hne : addrs ≠ [])
    (hsub : newPool.subnets = s0 :: rest)
    (hbuild : PoolSpecToIPSet (some s0) = .ok rs) :
    (findOrphanedIPs addrs (some rs) = [] → validateUpdate addrs newPool = .ok ()) ∧
      (findOrphanedIPs addrs (some rs) ≠ [] →
        validateUpdate addrs newPool
          = .error (.forbidden (findOrphanedIPs addrs (some rs)).length
              (findOrphanedIPs addrs (some rs)))) ∧
      (∀ ip, ip ∈ findOrphanedIPs addrs (some rs) ↔
        ∃ a ∈ addrs, a.address = ip ∧ isOrphan rs a = true) := by
  have hlen : ¬ addrs.length = 0 := by
    simpa [List.length_eq_zero] using hne
  have hset : buildNewPoolIPSet newPool = .ok (some rs) := by
    unfold buildNewPoolIPSet
    rw [hsub]
    simp only
    rw [hbuild]
  have hvu : ∀ o : List String, findOrphanedIPs addrs (some rs) = o →
      validateUpdate addrs newPool
        = if o.length > 0 then .error (.forbidden o.length o) else .ok () := by
    intro o ho
    unfold validateUpdate
    rw [if_neg hlen, hset]
    simp only
    rw [ho]
  refine ⟨?_, ?_, ?_⟩
  · intro ho
    rw [hvu [] ho]
    simp
  · intro ho
    rw [hvu _ rfl, if_pos (by
      rcases List.exists_mem_of_ne_nil _ ho with ⟨x, hx⟩
      exact List.length_pos.mpr ho)]
  · intro ip
    rw [findOrphanedIPs_eq]
    constructor
    · intro h
      obtain ⟨a, ha, rfl⟩ := List.mem_map.mp h
      obtain ⟨ha1, ha2⟩ := List.mem_filter.mp ha
      exact ⟨a, ha1, rfl, ha2⟩
    · intro ⟨a, ha, heq, horp⟩
      exact List.mem_map.mpr ⟨a, List.mem_filter.mpr ⟨ha, horp⟩, heq⟩

/-- Witness for `C10_update_validation`: a pool shrunk to `10.0.0.0/28`
while `10.0.0.200` is still bound — the update is rejected naming that
address. -/
theorem C10_update_validation_witness :
    validateUpdate [{ nsName := "d", address := "10.0.0.200", claimRefName := "c1" }]
        { subnets := [{ cidr := "10.0.0.0/28", gateway := "10.0.0.1" }] }
      = .error (.forbidden 1 ["10.0.0.200"]) := by
  have h := (C10_update_validation
      [{ nsName := "d", address := "10.0.0.200", claimRefName := "c1" }]
      { subnets := [{ cidr := "10.0.0.0/28", gateway := "10.0.0.1" }] }
      { cidr := "10.0.0.0/28", gateway := "10.0.0.1" } [] [⟨167772162, 167772174⟩]
      (by simp) rfl (by decide)).2.1 (by decide)
  rw [show findOrphanedIPs
      [{ nsName := "d", address := "10.0.0.200", claimRefName := "c1" }]
      (some [⟨167772162, 167772174⟩]) = ["10.0.0.200"] from by decide] at h
  exact h
